import Mathlib

/-!
Shallow embedding of the yu-lang compiler front end (lexer, parser helpers,
SSA IR builder and IR analyzer) together with theorems checking the
specification's claims against the embedded code.

Conventions used throughout:
* Source text and token slices are lists of byte values (`List Nat`, each < 256).
* C++ `uint32_t` values are modelled as `Nat`; the value `UINT32_MAX` used as a
  sentinel is the literal 4294967295.
* Enumerations (`token_i`, `ir_op_t`) are modelled by their numeric
  enumerator values, mirroring the `uint8_t` underlying type of the C++ enums.
* `std::vector` reads `v[i]` are modelled with `List.getD`; an out-of-bounds
  C++ access is undefined behaviour, and functions whose claims depend on it
  model the access explicitly (see the line-table access log of
  `skip_whitespace_comment`).
-/

namespace Yu

/-- Sentinel for `(uint32_t)-1` / `std::numeric_limits<uint32_t>::max()`. -/
def UINT32MAX : Nat := 4294967295

/-! ## Token kind codes, from `enum class token_i : uint8_t` in tokens.h.
Only the enumerators the embedded functions mention are named. -/

def tokTRUE : Nat := 0
def tokFALSE : Nat := 1
def tokNIL : Nat := 2
def tokI32 : Nat := 39
def tokI64 : Nat := 41
def tokF64 : Nat := 43
def tokSTRING : Nat := 44
def tokBOOLEAN : Nat := 45
def tokIDENTIFIER : Nat := 80
def tokNUM_LITERAL : Nat := 81
def tokSTR_LITERAL : Nat := 82
def tokUNKNOWN : Nat := 84
def tokEND_OF_FILE : Nat := 85

/-! ## Parser symbol table (parser.cpp)

`SymbolList` is the structure-of-arrays symbol table; `lookup_symbol` is the
verbatim loop of `Parser::lookup_symbol` (src/compiler/src/parser.cpp:502),
which scans from the highest id downwards and accepts on a name match.
-/

structure SymbolList where
  names : List (List Nat)
  type_indices : List Nat
  scopes : List Nat
  symbol_flags : List Nat

/-- Descending scan of `Parser::lookup_symbol`: counter `k` is one past the
next index to inspect; the C++ loop runs `i = size-1 .. 0`. -/
def lookup_from (names : List (List Nat)) (nm : List Nat) : Nat → Nat
  | 0 => UINT32MAX
  | k + 1 => if names.getD k [] = nm then k else lookup_from names nm k

/-- Embeds `Parser::lookup_symbol` (src/compiler/src/parser.cpp:502-510). -/
def lookup_symbol (names : List (List Nat)) (nm : List Nat) : Nat :=
  lookup_from names nm names.length

/-! ## Type inference (parser.cpp)

`infer_type` embeds `Parser::infer_type` (src/compiler/src/parser.cpp:445-488).
`expr_types` stores the token kind recorded for the expression; `values`
stores the literal text. 46 is the byte of a full stop.
-/

structure ExprList where
  expr_types : List Nat
  values : List (List Nat)

structure TypeNameList where
  names : List (List Nat)

/-- Embeds `Parser::infer_type`: sentinel for out-of-range ids, a raw return
of small codes, then the literal-shape switch over the stored token kind. -/
def infer_type (exprs : ExprList) (types : TypeNameList) (syms : SymbolList)
    (expr_index : Nat) : Nat :=
  if expr_index ≥ exprs.expr_types.length then UINT32MAX
  else
    let t := exprs.expr_types.getD expr_index 0
    if t < types.names.length then t
    else if t = tokNUM_LITERAL then
      if (exprs.values.getD expr_index []).contains 46 then tokF64 else tokI32
    else if t = tokTRUE ∨ t = tokFALSE then tokBOOLEAN
    else if t = tokSTR_LITERAL then tokSTRING
    else if t = tokNIL then UINT32MAX
    else if t = tokIDENTIFIER then
      let symbol_index := lookup_symbol syms.names (exprs.values.getD expr_index [])
      if symbol_index ≠ UINT32MAX then syms.type_indices.getD symbol_index 0
      else UINT32MAX
    else UINT32MAX

/-! ## Error pointer rendering (parser.cpp)

`line_start_from` is the backwards scan of `Parser::create_error_pointer`
(src/compiler/src/parser.cpp:1293-1307): walk left from the token start until
position 0 or a byte after a newline (byte 10). `get_byte` models a read of
the immutable source buffer. -/

/-- Reads byte `i` of the source; out-of-range reads yield the NUL byte 0,
matching the `'\x5c0'`-sentinel convention the lexer itself uses for
lookahead past the end of the buffer. -/
def get_byte (src : List Nat) (i : Nat) : Nat := src.getD i 0

/-- Backwards scan `while (line_start > 0 && source[line_start - 1] != '\n')`. -/
def line_start_from (src : List Nat) : Nat → Nat
  | 0 => 0
  | j + 1 => if get_byte src j = 10 then j + 1 else line_start_from src j

/-- Embeds `Parser::create_error_pointer`: `column` is the token index (the
C++ parameter is named `column` but indexes the token list); bytes 32, 94 and
126 are space, caret and tilde. -/
def create_error_pointer (src : List Nat) (starts : List Nat)
    (lengths : List Nat) (column : Nat) : List Nat :=
  let start := starts.getD column 0
  let length := lengths.getD column 0
  let line_start := line_start_from src start
  let col := start - line_start
  List.replicate col 32 ++ [94] ++ List.replicate length 126

/-! ### Claims C5, C6, C7 -/

/-- Behaviour of `line_start_from`: it returns the greatest position `≤ i`
that is 0 or directly preceded by a newline, and no newline occurs between
that position and `i`. -/
theorem line_start_from_spec (src : List Nat) (i : Nat) :
    line_start_from src i ≤ i ∧
    (line_start_from src i = 0 ∨ get_byte src (line_start_from src i - 1) = 10) ∧
    (∀ k, line_start_from src i ≤ k → k < i → get_byte src k ≠ 10) := by
  induction i with
  | zero =>
    refine ⟨Nat.le_refl 0, Or.inl rfl, ?_⟩
    intro k hk hlt
    omega
  | succ j ih =>
    have hstep : line_start_from src (j + 1) =
        if get_byte src j = 10 then j + 1 else line_start_from src j := rfl
    by_cases h : get_byte src j = 10
    · rw [hstep, if_pos h]
      refine ⟨Nat.le_refl _, Or.inr (by simpa using h), ?_⟩
      intro k hk hlt
      omega
    · rw [hstep, if_neg h]
      obtain ⟨ih1, ih2, ih3⟩ := ih
      refine ⟨by omega, ih2, ?_⟩
      intro k hk hlt
      rcases Nat.lt_or_ge k j with hj | hj
      · exact ih3 k hk hj
      · have : k = j := by omega
        subst this
        exact h

/-- Claim C5, counterexample: for the initializer literal `3000000000`
(bytes of the decimal digits, no full stop), `infer_type` does not yield
`i64` as the claim states; the u64-range analysis is absent from the cited
`Parser::infer_type`. -/
theorem c5_counterexample :
    ¬ (infer_type ⟨[tokNUM_LITERAL], [[51, 48, 48, 48, 48, 48, 48, 48, 48, 48]]⟩
        ⟨[]⟩ ⟨[], [], [], []⟩ 0 = tokI64) := by
  decide

/-- Claim C5 (amended): for a variable declaration without a type annotation
whose initializer is a decimal number literal containing no full stop,
`infer_type` yields `i32` regardless of the literal's numeric value (so
`3000000000` also infers `i32`), provided fewer than 82 entries are in the
type-name table (the guard `expr_types[e] < types.names.size()` is then
false for the `NUM_LITERAL` kind code 81). -/
theorem c5_amended (exprs : ExprList) (types : TypeNameList) (syms : SymbolList)
    (e : Nat) (he : e < exprs.expr_types.length)
    (hkind : exprs.expr_types.getD e 0 = tokNUM_LITERAL)
    (htypes : types.names.length ≤ 81)
    (hdot : (exprs.values.getD e []).contains 46 = false) :
    infer_type exprs types syms e = tokI32 := by
  unfold infer_type
  rw [if_neg (by omega)]
  simp only [hkind, tokNUM_LITERAL]
  rw [if_neg (by omega)]
  simp at hdot
  simp [hdot]

/-- Witness for c5_amended at the literal `3000000000`. -/
theorem c5_amended_witness :
    (0 < (ExprList.mk [tokNUM_LITERAL]
        [[51, 48, 48, 48, 48, 48, 48, 48, 48, 48]]).expr_types.length ∧
      (([[51, 48, 48, 48, 48, 48, 48, 48, 48, 48]] :
          List (List Nat)).getD 0 []).contains 46 = false) ∧
    infer_type ⟨[tokNUM_LITERAL], [[51, 48, 48, 48, 48, 48, 48, 48, 48, 48]]⟩
      ⟨[]⟩ ⟨[], [], [], []⟩ 0 = tokI32 :=
  ⟨⟨by decide, by decide⟩,
    c5_amended ⟨[tokNUM_LITERAL], [[51, 48, 48, 48, 48, 48, 48, 48, 48, 48]]⟩
      ⟨[]⟩ ⟨[], [], [], []⟩ 0 (by decide) (by decide) (by decide) (by decide)⟩

/-- Claim C6, counterexample: with one symbol named `x` recorded at scope
depth 3 and current scope 0, `lookup_symbol` returns that symbol (index 0)
even though its scope is deeper than the current scope; the cited loop never
consults the recorded scopes. -/
theorem c6_counterexample :
    ¬ (lookup_symbol [[120]] [120] = UINT32MAX ∨
        (SymbolList.mk [[120]] [5] [3] [0]).scopes.getD
          (lookup_symbol [[120]] [120]) 0 ≤ 0) := by
  decide

/-- Descending-scan characterisation of `lookup_from`, for counters that stay
within the `int32_t` loop index of the C++ code. -/
theorem lookup_from_spec (names : List (List Nat)) (nm : List Nat) (k : Nat)
    (hk : k ≤ names.length) :
    (lookup_from names nm k = UINT32MAX ∧ ∀ j, j < k → names.getD j [] ≠ nm) ∨
    (lookup_from names nm k < k ∧ names.getD (lookup_from names nm k) [] = nm ∧
      ∀ j, lookup_from names nm k < j → j < k → names.getD j [] ≠ nm) := by
  induction k with
  | zero =>
    left
    refine ⟨rfl, ?_⟩
    intro j hj
    omega
  | succ k ih =>
    have ih := ih (by omega)
    have hstep : lookup_from names nm (k + 1) =
        if names.getD k [] = nm then k else lookup_from names nm k := rfl
    by_cases h : names.getD k [] = nm
    · right
      rw [hstep, if_pos h]
      refine ⟨by omega, h, ?_⟩
      intro j hj1 hj2
      omega
    · rw [hstep, if_neg h]
      rcases ih with ⟨h1, h2⟩ | ⟨h1, h2, h3⟩
      · left
        refine ⟨h1, ?_⟩
        intro j hj
        rcases Nat.lt_or_ge j k with hj2 | hj2
        · exact h2 j hj2
        · have : j = k := by omega
          subst this
          exact h
      · right
        refine ⟨by omega, h2, ?_⟩
        intro j hj1 hj2
        rcases Nat.lt_or_ge j k with hj3 | hj3
        · exact h3 j hj1 hj3
        · have : j = k := by omega
          subst this
          exact h

/-- Claim C6 (amended): `Parser::lookup_symbol` returns the highest-id symbol
whose name matches, regardless of recorded scope depth (the cited loop never
reads `symbols.scopes`); when no name matches it returns the sentinel. The
length bound reflects the `int32_t` loop counter of the C++ code. -/
theorem c6_amended (names : List (List Nat)) (nm : List Nat)
    (hlen : names.length < 2147483648) :
    (lookup_symbol names nm ≠ UINT32MAX →
      lookup_symbol names nm < names.length ∧
      names.getD (lookup_symbol names nm) [] = nm ∧
      ∀ j, lookup_symbol names nm < j → j < names.length →
        names.getD j [] ≠ nm) ∧
    (lookup_symbol names nm = UINT32MAX →
      ∀ j, j < names.length → names.getD j [] ≠ nm) := by
  have h := lookup_from_spec names nm names.length (Nat.le_refl _)
  unfold lookup_symbol
  rcases h with ⟨h1, h2⟩ | ⟨h1, h2, h3⟩
  · exact ⟨fun hne => absurd h1 hne, fun _ => h2⟩
  · constructor
    · intro _
      exact ⟨h1, h2, h3⟩
    · intro heq
      rw [heq] at h1
      unfold UINT32MAX at h1
      omega

/-- Witness for c6_amended: a two-symbol table where both entries are named
`x`. -/
theorem c6_amended_witness :
    ([[120], [120]] : List (List Nat)).length < 2147483648 ∧
    ((lookup_symbol [[120], [120]] [120] ≠ UINT32MAX →
        lookup_symbol [[120], [120]] [120] <
          ([[120], [120]] : List (List Nat)).length ∧
        ([[120], [120]] : List (List Nat)).getD
          (lookup_symbol [[120], [120]] [120]) [] = [120] ∧
        ∀ j, lookup_symbol [[120], [120]] [120] < j →
          j < ([[120], [120]] : List (List Nat)).length →
          ([[120], [120]] : List (List Nat)).getD j [] ≠ [120]) ∧
      (lookup_symbol [[120], [120]] [120] = UINT32MAX →
        ∀ j, j < ([[120], [120]] : List (List Nat)).length →
          ([[120], [120]] : List (List Nat)).getD j [] ≠ [120])) :=
  ⟨by decide, c6_amended [[120], [120]] [120] (by decide)⟩

/-- Claim C7, counterexample: for source `ab` and a diagnosed token at start
0 with length 1 (line-local column 0), the claim predicts 0 spaces, one
caret and 0 tildes, but `create_error_pointer` appends one tilde (byte 126)
per token byte, not length-1. -/
theorem c7_counterexample :
    ¬ (create_error_pointer [97, 98] [0] [1] 0 =
        List.replicate 0 32 ++ [94] ++ List.replicate (1 - 1) 126) := by
  decide

/-- Claim C7 (amended): for every diagnosed token, `create_error_pointer`
returns exactly `col` spaces, one caret, and exactly `len` tildes (not
`len - 1`), where `col` is the line-local column: the distance from the
greatest line start at or before the token start, as characterised by
`line_start_from_spec`. -/
theorem c7_amended (src : List Nat) (starts lengths : List Nat) (i : Nat) :
    create_error_pointer src starts lengths i =
      List.replicate (starts.getD i 0 - line_start_from src (starts.getD i 0)) 32
        ++ [94] ++ List.replicate (lengths.getD i 0) 126 ∧
    line_start_from src (starts.getD i 0) ≤ starts.getD i 0 ∧
    (line_start_from src (starts.getD i 0) = 0 ∨
      get_byte src (line_start_from src (starts.getD i 0) - 1) = 10) ∧
    (∀ k, line_start_from src (starts.getD i 0) ≤ k → k < starts.getD i 0 →
      get_byte src k ≠ 10) := by
  obtain ⟨h1, h2, h3⟩ := line_start_from_spec src (starts.getD i 0)
  exact ⟨rfl, h1, h2, h3⟩

/-! ## IR opcode codes, from `enum class ir_op_t : uint8_t` in ir.h.
The numeric values are the enumerator positions; comparisons such as
`op >= TYPE_VOID && op <= TYPE_PTR` and `std::max` on operand types are
comparisons of these codes. -/

def TYPE_VOID : Nat := 0
def TYPE_BOOL : Nat := 1
def TYPE_I8 : Nat := 2
def TYPE_U8 : Nat := 3
def TYPE_I16 : Nat := 4
def TYPE_U16 : Nat := 5
def TYPE_I32 : Nat := 6
def TYPE_U32 : Nat := 7
def TYPE_I64 : Nat := 8
def TYPE_U64 : Nat := 9
def TYPE_F32 : Nat := 10
def TYPE_F64 : Nat := 11
def TYPE_PTR : Nat := 12
def MEM_LOAD : Nat := 17
def MEM_STORE : Nat := 18
def OP_ADD : Nat := 31
def OP_SUB : Nat := 32
def OP_MUL : Nat := 33
def OP_DIV : Nat := 34
def OP_MOD : Nat := 35
def OP_FADD : Nat := 37
def OP_FSUB : Nat := 38
def OP_FMUL : Nat := 39
def OP_FDIV : Nat := 40
def OP_AND : Nat := 41
def OP_OR : Nat := 42
def OP_XOR : Nat := 43
def OP_NOT : Nat := 44
def OP_LT : Nat := 50
def CONV_ZEXT : Nat := 60
def CONV_SEXT : Nat := 61
def CONV_TRUNC : Nat := 62
def FLOW_JUMP : Nat := 70
def FLOW_BRANCH : Nat := 71
def FLOW_RETURN : Nat := 73
def FLOW_UNREACHABLE : Nat := 76
def SSA_PHI : Nat := 103

/-! ## IR structure-of-arrays containers (ir.h) -/

/-- Embeds `ir_instruction_blocks_t` (the `mem_ops` sub-SoA is never touched
by the builder or the validators and is omitted). -/
structure InstructionList where
  ops : List Nat
  destinations : List Nat
  operand_count : List Nat
  operands : List Nat
  operand_types : List Nat
  bb_indices : List Nat

/-- Embeds `bb_list`. -/
structure BasicBlockList where
  start_indices : List Nat
  instruction_counts : List Nat
  successor_counts : List Nat
  successors : List Nat
  predecessor_counts : List Nat
  predecessors : List Nat

/-- Embeds `function_meta_t`. -/
structure FunctionList where
  bb_start_indices : List Nat
  bb_counts : List Nat
  param_counts : List Nat
  param_types : List Nat
  return_types : List Nat
  names : List String

/-- Embeds the `IRBuilder` state (builder.cpp): the SoA tables plus the
`sealed` flag and the current function/block cursors (`UINT32_MAX` cursors
are modelled as `none`). -/
structure IRBuilder where
  is_sealed : Bool
  current_function : Option Nat
  current_bb : Option Nat
  instructions : InstructionList
  immediate_ops : List (List Nat)
  basic_blocks : BasicBlockList
  functions : FunctionList

def initBuilder : IRBuilder :=
  ⟨false, none, none, ⟨[], [], [], [], [], []⟩, [], ⟨[], [], [], [], [], []⟩,
    ⟨[], [], [], [], [], []⟩⟩

/-! ## IR builder operations (builder.cpp)

Each method becomes a state-transformer returning `Option IRBuilder`; `none`
models a failed `assert` (the method's preconditions) or an out-of-bounds
`std::vector` element access, both of which stop the C++ program rather than
produce a sealed IR. -/

/-- Embeds `IRBuilder::create_function` (builder.cpp:18-36). -/
def create_function (st : IRBuilder) (name : String) (ptypes : List Nat)
    (ret : Nat) : Option IRBuilder :=
  if st.is_sealed then none
  else
    some { st with
      current_function := some st.functions.bb_start_indices.length
      functions := {
        bb_start_indices := st.functions.bb_start_indices ++
          [st.basic_blocks.start_indices.length]
        bb_counts := st.functions.bb_counts ++ [0]
        param_counts := st.functions.param_counts ++ [ptypes.length]
        param_types := st.functions.param_types ++ ptypes
        return_types := st.functions.return_types ++ [ret]
        names := st.functions.names ++ [name] } }

/-- Embeds `IRBuilder::create_bb` (builder.cpp:38-54). -/
def create_bb (st : IRBuilder) : Option IRBuilder :=
  if st.is_sealed then none
  else
    match st.current_function with
    | none => none
    | some f =>
      if f < st.functions.bb_counts.length then
        some { st with
          current_bb := some st.basic_blocks.start_indices.length
          basic_blocks := { st.basic_blocks with
            start_indices := st.basic_blocks.start_indices ++
              [st.instructions.ops.length]
            instruction_counts := st.basic_blocks.instruction_counts ++ [0]
            successor_counts := st.basic_blocks.successor_counts ++ [0]
            predecessor_counts := st.basic_blocks.predecessor_counts ++ [0] }
          functions := { st.functions with
            bb_counts := st.functions.bb_counts.set f
              (st.functions.bb_counts.getD f 0 + 1) } }
      else none

/-- Embeds `IRBuilder::add_instruction` (builder.cpp:56-74). Note that the
C++ pushes a copy of the operand list into `immediate_ops` for every
instruction, whatever its opcode. -/
def add_instruction (st : IRBuilder) (op : Nat) (opnds : List Nat) :
    Option IRBuilder :=
  if st.is_sealed then none
  else
    match st.current_function, st.current_bb with
    | some _, some bb =>
      if bb < st.basic_blocks.instruction_counts.length then
        some { st with
          instructions := { st.instructions with
            ops := st.instructions.ops ++ [op]
            destinations := st.instructions.destinations ++
              [st.instructions.destinations.length]
            operand_count := st.instructions.operand_count ++ [opnds.length]
            operands := st.instructions.operands ++ opnds
            bb_indices := st.instructions.bb_indices ++ [bb] }
          immediate_ops := st.immediate_ops ++ [opnds]
          basic_blocks := { st.basic_blocks with
            instruction_counts := st.basic_blocks.instruction_counts.set bb
              (st.basic_blocks.instruction_counts.getD bb 0 + 1) } }
      else none
    | _, _ => none

/-- Embeds `IRBuilder::add_conversion` (builder.cpp:76-85). -/
def add_conversion (st : IRBuilder) (op : Nat) (opnds : List Nat)
    (from_type to_type : Nat) : Option IRBuilder :=
  (add_instruction st op opnds).map fun st2 =>
    { st2 with instructions := { st2.instructions with
        operand_types := st2.instructions.operand_types ++
          [from_type, to_type] } }

/-- Embeds `IRBuilder::add_memory_op` (builder.cpp:87-94). -/
def add_memory_op (st : IRBuilder) (op : Nat) (opnds : List Nat)
    (value_type : Nat) : Option IRBuilder :=
  (add_instruction st op opnds).map fun st2 =>
    { st2 with instructions := { st2.instructions with
        operand_types := st2.instructions.operand_types ++ [value_type] } }

/-- Embeds `IRBuilder::set_current_bb` (builder.cpp:126-130); the C++ does
not bounds-check the index. -/
def set_current_bb (st : IRBuilder) (bb : Nat) : Option IRBuilder :=
  if st.is_sealed then none else some { st with current_bb := some bb }

/-- One builder API call, for quantifying over call sequences. -/
inductive BuilderCall where
  | create_function (name : String) (param_types : List Nat) (return_type : Nat)
  | create_bb
  | add_instruction (op : Nat) (operands : List Nat)
  | add_conversion (op : Nat) (operands : List Nat) (from_type to_type : Nat)
  | add_memory_op (op : Nat) (operands : List Nat) (value_type : Nat)
  | set_current_bb (bb : Nat)

/-- Dispatches one `BuilderCall` to the corresponding method. -/
def builder_step (st : IRBuilder) : BuilderCall → Option IRBuilder
  | .create_function name pt rt => create_function st name pt rt
  | .create_bb => create_bb st
  | .add_instruction op opnds => add_instruction st op opnds
  | .add_conversion op opnds ft tt => add_conversion st op opnds ft tt
  | .add_memory_op op opnds vt => add_memory_op st op opnds vt
  | .set_current_bb bb => set_current_bb st bb

/-- Runs a sequence of builder calls from a given state. -/
def run_calls (st : IRBuilder) : List BuilderCall → Option IRBuilder
  | [] => some st
  | c :: cs =>
    match builder_step st c with
    | none => none
    | some st2 => run_calls st2 cs

/-- Runs a sequence of builder calls from the initial state and then seals
the builder (`IRBuilder::seal`, builder.cpp:101-104). -/
def build_sealed (cs : List BuilderCall) : Option IRBuilder :=
  (run_calls initBuilder cs).map fun st => { st with is_sealed := true }

/-! ## IR analyzer (analyzer.cpp)

The three validators are embedded as boolean functions over a builder state.
`List.getD` models `std::vector::operator[]`; indices that the C++ reads out
of bounds would be undefined behaviour there, and every theorem below
evaluates the validators only on states where all reads are in bounds.
-/

/-- Embeds `IRAnalyzer::is_integer_type` (analyzer.cpp:9-25). -/
def is_integer_type (t : Nat) : Bool :=
  TYPE_I8 ≤ t ∧ t ≤ TYPE_U64

/-- Embeds `IRAnalyzer::is_float_type` (analyzer.cpp:27-37). -/
def is_float_type (t : Nat) : Bool :=
  t = TYPE_F32 ∨ t = TYPE_F64

/-- Embeds `IRAnalyzer::is_pointer_type` (analyzer.cpp:39-42). -/
def is_pointer_type (t : Nat) : Bool :=
  t = TYPE_PTR

/-- Embeds `IRAnalyzer::get_pointee_type` (analyzer.cpp:44-48). -/
def get_pointee_type : Nat := TYPE_VOID

/-- Embeds `IRAnalyzer::get_type_size` (analyzer.cpp:50-74). -/
def get_type_size (t : Nat) : Nat :=
  if t = TYPE_BOOL ∨ t = TYPE_I8 ∨ t = TYPE_U8 then 1
  else if t = TYPE_I16 ∨ t = TYPE_U16 then 2
  else if t = TYPE_I32 ∨ t = TYPE_U32 ∨ t = TYPE_F32 then 4
  else if t = TYPE_I64 ∨ t = TYPE_U64 ∨ t = TYPE_F64 then 8
  else if t = TYPE_PTR then 8
  else 0

/-- Per-register information of `validate_type`: type code, is_defined,
known_values. -/
def TypeInfo : Type := Nat × Bool × List Nat

/-- Marks the first `k` registers as defined, starting at index `i`:
the parameter-seeding loop `for (i = 0; i < param_types.size(); ++i)
defined[i] = true` of `validate_ssa`. -/
def ssa_seed_params : Nat → Nat → List Bool → List Bool
  | 0, _, defined => defined
  | k + 1, i, defined => ssa_seed_params k (i + 1) (defined.set i true)

/-- First pass of `validate_ssa` (analyzer.cpp:516-538) over `k` remaining
instructions starting at index `i`: a type-marker instruction, or any
instruction whose `immediate_ops` entry is non-empty (the two C++ branches
have identical bodies), defines its destination; a repeated destination is
an SSA violation (`none`). -/
def ssa_mark_pass (b : IRBuilder) : Nat → Nat → List Bool → Option (List Bool)
  | 0, _, defined => some defined
  | k + 1, i, defined =>
    let opv := b.instructions.ops.getD i 0
    if (TYPE_VOID ≤ opv ∧ opv ≤ TYPE_PTR) ∨ b.immediate_ops.getD i [] ≠ [] then
      let dest := b.instructions.destinations.getD i 0
      if defined.getD dest false then none
      else ssa_mark_pass b k (i + 1) (defined.set dest true)
    else ssa_mark_pass b k (i + 1) defined

/-- Operand loop of the second `validate_ssa` pass (analyzer.cpp:556-580)
over `k` remaining operand positions starting at `op`, for instruction `i`.
As in the C++, `operands[op]` reads the flat operand array from index 0, not
from the instruction's own slice. -/
def ssa_operand_check (b : IRBuilder) (defined : List Bool)
    (bb_defs : List (List Nat)) (start_bb i : Nat) : Nat → Nat → Bool
  | 0, _ => true
  | k + 1, op =>
    let operand := b.instructions.operands.getD op 0
    if b.instructions.ops.getD i 0 = SSA_PHI then
      if op % 2 = 1 then ssa_operand_check b defined bb_defs start_bb i k (op + 1)
      else
        let pred_block := b.instructions.operands.getD (op + 1) 0
        if ¬ defined.getD operand false ∧
            ¬ (bb_defs.getD (pred_block - start_bb) []).contains operand then
          false
        else ssa_operand_check b defined bb_defs start_bb i k (op + 1)
    else
      if operand ≥ defined.length ∨ ¬ defined.getD operand false then false
      else ssa_operand_check b defined bb_defs start_bb i k (op + 1)

/-- Instruction walk of the second `validate_ssa` pass for one function
(analyzer.cpp:545-592), over `k` remaining instructions starting at `i`:
instructions outside the function's block range, type markers, and
instructions with a non-empty `immediate_ops` entry are skipped; otherwise
the operands are checked, the destination must be fresh and is recorded both
globally and per block. -/
def ssa_func_pass (b : IRBuilder) (start_bb bb_count : Nat) :
    Nat → Nat → List Bool → List (List Nat) → Option (List Bool)
  | 0, _, defined, _ => some defined
  | k + 1, i, defined, bb_defs =>
    let curr_bb := b.instructions.bb_indices.getD i 0
    let opv := b.instructions.ops.getD i 0
    if curr_bb < start_bb ∨ curr_bb ≥ start_bb + bb_count then
      ssa_func_pass b start_bb bb_count k (i + 1) defined bb_defs
    else if TYPE_VOID ≤ opv ∧ opv ≤ TYPE_PTR then
      ssa_func_pass b start_bb bb_count k (i + 1) defined bb_defs
    else if b.immediate_ops.getD i [] ≠ [] then
      ssa_func_pass b start_bb bb_count k (i + 1) defined bb_defs
    else if ¬ ssa_operand_check b defined bb_defs start_bb i
        (b.instructions.operand_count.getD i 0) 0 then
      none
    else
      let dest := b.instructions.destinations.getD i 0
      if defined.getD dest false then none
      else
        ssa_func_pass b start_bb bb_count k (i + 1) (defined.set dest true)
          (bb_defs.set (curr_bb - start_bb)
            ((bb_defs.getD (curr_bb - start_bb) []) ++ [dest]))

/-- Function loop of the second `validate_ssa` pass (analyzer.cpp:540-593)
over `k` remaining functions starting at `func`. -/
def ssa_funcs (b : IRBuilder) : Nat → Nat → List Bool → Option (List Bool)
  | 0, _, defined => some defined
  | k + 1, func, defined =>
    let start_bb := b.functions.bb_start_indices.getD func 0
    let bb_count := b.functions.bb_counts.getD func 0
    match ssa_func_pass b start_bb bb_count b.instructions.ops.length 0
        defined (List.replicate bb_count []) with
    | none => none
    | some d2 => ssa_funcs b k (func + 1) d2

/-- Embeds `IRAnalyzer::validate_ssa` (analyzer.cpp:502-596): parameter
seeding, the marking pass, then the per-function walk. -/
def validate_ssa (b : IRBuilder) : Bool :=
  let defined0 := ssa_seed_params b.functions.param_types.length 0
    (List.replicate b.instructions.destinations.length false)
  match ssa_mark_pass b b.instructions.ops.length 0 defined0 with
  | none => false
  | some d1 =>
    match ssa_funcs b b.functions.bb_counts.length 0 d1 with
    | none => false
    | some _ => true

/-- Default-constructed `TypeInfo` of `validate_type`. -/
def vt_default : TypeInfo := (TYPE_VOID, false, [])

/-- Parameter seeding loop of `validate_type` (analyzer.cpp:98-102), over
`k` remaining parameters starting at `i`: quirks preserved, registers are
indexed by `start_bb + i` and the flat `param_types` list is read from its
beginning. -/
def vt_seed_params (b : IRBuilder) (start_bb : Nat) :
    Nat → Nat → List TypeInfo → List TypeInfo
  | 0, _, rt => rt
  | k + 1, i, rt =>
    let prev := rt.getD (start_bb + i) vt_default
    vt_seed_params b start_bb k (i + 1)
      (rt.set (start_bb + i) (b.functions.param_types.getD i 0, true, prev.2.2))

/-- Operand-type collection loop of `validate_type` (analyzer.cpp:129-146),
over `k` remaining operand positions starting at `op_idx`. As in the C++,
`operands[op_idx]` reads the flat operand array from index 0. -/
def vt_collect (b : IRBuilder) (rt : List TypeInfo) :
    Nat → Nat → List Nat → Option (List Nat)
  | 0, _, acc => some acc
  | k + 1, op_idx, acc =>
    let operand := b.instructions.operands.getD op_idx 0
    if operand ≥ rt.length then none
    else
      let info := rt.getD operand vt_default
      if ¬ info.2.1 then none
      else vt_collect b rt k (op_idx + 1) (acc ++ [info.1])

/-- Pair-checking loop of the `SSA_PHI` case (analyzer.cpp:283-296), over
`k` remaining pairs with value position `op1`: each value's type must equal
the phi type and the register named by the block-id operand must have an
integer type. -/
def vt_phi_pairs (b : IRBuilder) (rt : List TypeInfo)
    (otl : List Nat) (phi_type : Nat) : Nat → Nat → Bool
  | 0, _ => true
  | k + 1, op1 =>
    if otl.getD op1 0 ≠ phi_type then false
    else if ¬ is_integer_type
        ((rt.getD (b.instructions.operands.getD (op1 + 1) 0) vt_default).1) then
      false
    else vt_phi_pairs b rt otl phi_type k (op1 + 2)

/-- Opcode dispatch of `validate_type` (analyzer.cpp:148-398) for one
instruction: returns the updated register table, or `none` for a violation.
`otl` is the collected operand type list, `cnt` the operand count. -/
def vt_switch (b : IRBuilder) (func op dest cnt : Nat)
    (otl : List Nat) (rt : List TypeInfo) : Option (List TypeInfo) :=
  if op = OP_ADD ∨ op = OP_SUB ∨ op = OP_MUL ∨ op = OP_DIV ∨ op = OP_MOD then
    if cnt ≠ 2 then none
    else if ¬ is_integer_type (otl.getD 0 0) ∨
        ¬ is_integer_type (otl.getD 1 0) then none
    else
      let prev := rt.getD dest vt_default
      some (rt.set dest (max (otl.getD 0 0) (otl.getD 1 0), true, prev.2.2))
  else if op = OP_FADD ∨ op = OP_FSUB ∨ op = OP_FMUL ∨ op = OP_FDIV then
    if cnt ≠ 2 then none
    else if ¬ is_float_type (otl.getD 0 0) ∨
        ¬ is_float_type (otl.getD 1 0) then none
    else
      let prev := rt.getD dest vt_default
      some (rt.set dest (max (otl.getD 0 0) (otl.getD 1 0), true, prev.2.2))
  else if op = OP_AND ∨ op = OP_OR ∨ op = OP_XOR then
    if cnt ≠ 2 then none
    else if ¬ is_integer_type (otl.getD 0 0) ∨
        ¬ is_integer_type (otl.getD 1 0) then none
    else
      let prev := rt.getD dest vt_default
      some (rt.set dest (max (otl.getD 0 0) (otl.getD 1 0), true, prev.2.2))
  else if op = OP_NOT then
    if cnt ≠ 1 then none
    else if ¬ is_integer_type (otl.getD 0 0) then none
    else
      let prev := rt.getD dest vt_default
      some (rt.set dest (otl.getD 0 0, true, prev.2.2))
  else if op = FLOW_BRANCH then
    if cnt ≠ 3 then none
    else if otl.getD 0 0 ≠ TYPE_BOOL then none
    else if ¬ is_integer_type (otl.getD 1 0) ∨
        ¬ is_integer_type (otl.getD 2 0) then none
    else some rt
  else if op = FLOW_RETURN then
    if cnt > 0 then
      if otl.getD 0 0 ≠ b.functions.return_types.getD func 0 then none
      else some rt
    else if b.functions.return_types.getD func 0 ≠ TYPE_VOID then none
    else some rt
  else if op = SSA_PHI then
    if cnt < 2 ∨ cnt % 2 ≠ 0 then none
    else
      let phi_type := otl.getD 0 0
      if ¬ vt_phi_pairs b rt otl phi_type ((cnt + 1) / 2) 0 then none
      else
        let prev := rt.getD dest vt_default
        some (rt.set dest (phi_type, true, prev.2.2))
  else if op = MEM_LOAD then
    if cnt ≠ 1 then none
    else if ¬ is_pointer_type (otl.getD 0 0) then none
    else
      let prev := rt.getD dest vt_default
      some (rt.set dest (get_pointee_type, true, prev.2.2))
  else if op = MEM_STORE then
    if cnt ≠ 2 then none
    else if ¬ is_pointer_type (otl.getD 0 0) then none
    else some rt
  else if op = FLOW_JUMP then
    if cnt ≠ 1 then none
    else if ¬ is_integer_type (otl.getD 0 0) then none
    else some rt
  else if op = CONV_SEXT ∨ op = CONV_ZEXT then
    if cnt ≠ 1 then none
    else if ¬ is_integer_type (otl.getD 0 0) then none
    else
      let prev := rt.getD dest vt_default
      if get_type_size prev.1 ≤ get_type_size (otl.getD 0 0) then none
      else some (rt.set dest (prev.1, true, prev.2.2))
  else if op = CONV_TRUNC then
    if cnt ≠ 1 then none
    else if ¬ is_integer_type (otl.getD 0 0) then none
    else
      let prev := rt.getD dest vt_default
      if get_type_size prev.1 ≥ get_type_size (otl.getD 0 0) then none
      else some (rt.set dest (prev.1, true, prev.2.2))
  else none

/-- Instruction loop of `validate_type` for one block (analyzer.cpp:109-399)
over `k` remaining instructions starting at `inst_idx`: a type marker sets
its destination's type and known values; any other opcode goes through
operand collection and the dispatch. -/
def vt_insts (b : IRBuilder) (func : Nat) :
    Nat → Nat → List TypeInfo → Option (List TypeInfo)
  | 0, _, rt => some rt
  | k + 1, inst_idx, rt =>
    let op := b.instructions.ops.getD inst_idx 0
    let dest := b.instructions.destinations.getD inst_idx 0
    if TYPE_VOID ≤ op ∧ op ≤ TYPE_PTR then
      let prev := rt.getD dest vt_default
      let kv := if b.immediate_ops.getD inst_idx [] ≠ [] then
        b.immediate_ops.getD inst_idx [] else prev.2.2
      vt_insts b func k (inst_idx + 1) (rt.set dest (op, true, kv))
    else
      let cnt := b.instructions.operand_count.getD inst_idx 0
      match vt_collect b rt cnt 0 [] with
      | none => none
      | some otl =>
        match vt_switch b func op dest cnt otl rt with
        | none => none
        | some rt2 => vt_insts b func k (inst_idx + 1) rt2

/-- Block loop of `validate_type` (analyzer.cpp:104-400) over `k` remaining
blocks starting at local index `bb`. -/
def vt_bbs (b : IRBuilder) (func start_bb : Nat) :
    Nat → Nat → List TypeInfo → Option (List TypeInfo)
  | 0, _, rt => some rt
  | k + 1, bb, rt =>
    let curr_bb := start_bb + bb
    let start_inst := b.basic_blocks.start_indices.getD curr_bb 0
    let inst_count := b.basic_blocks.instruction_counts.getD curr_bb 0
    match vt_insts b func inst_count start_inst rt with
    | none => none
    | some rt2 => vt_bbs b func start_bb k (bb + 1) rt2

/-- Function loop of `validate_type` (analyzer.cpp:93-401) over `k`
remaining functions starting at `func`. -/
def vt_funcs (b : IRBuilder) : Nat → Nat → List TypeInfo → Option (List TypeInfo)
  | 0, _, rt => some rt
  | k + 1, func, rt =>
    let start_bb := b.functions.bb_start_indices.getD func 0
    let bb_count := b.functions.bb_counts.getD func 0
    let param_count := b.functions.param_counts.getD func 0
    let rt1 := vt_seed_params b start_bb param_count 0 rt
    match vt_bbs b func start_bb bb_count 0 rt1 with
    | none => none
    | some rt2 => vt_funcs b k (func + 1) rt2

/-- Embeds `IRAnalyzer::validate_type` (analyzer.cpp:76-404). Quirks of the
C++ preserved by the helper loops: the parameter seeding indexes registers
by `start_bb + i` and reads the flat `param_types` list from its beginning;
operand collection reads `operands[op_idx]` — the flat operand array indexed
from 0 rather than this instruction's slice; `CONV_ZEXT/SEXT/TRUNC` compare
`reg_types[dest].type` (still its default) with the operand type and never
read the from/to types recorded by `add_conversion`. -/
def validate_type (b : IRBuilder) : Bool :=
  match vt_funcs b b.functions.bb_counts.length 0
      (List.replicate b.instructions.destinations.length vt_default) with
  | none => false
  | some _ => true

/-- Successor scan of one popped block in the worklist loop of
`validate_control_flow` (analyzer.cpp:447-455), over `k` remaining successor
positions starting at `succ`. The read `successors[succ]` uses the flat
successor array indexed from 0, as in the C++. -/
def bfs_push (successors : List Nat) (start_bb : Nat) :
    Nat → Nat → List Bool → List Nat → List Bool × List Nat
  | 0, _, reach, wl => (reach, wl)
  | k + 1, succ, reach, wl =>
    let succ_idx := successors.getD succ 0
    if ¬ reach.getD (succ_idx - start_bb) false then
      bfs_push successors start_bb k (succ + 1)
        (reach.set (succ_idx - start_bb) true) (wl ++ [succ_idx])
    else bfs_push successors start_bb k (succ + 1) reach wl

/-- Breadth-first drain of the analyzer's worklist (the `while` loop of
`validate_control_flow`, analyzer.cpp:442-456). Fuel bounds the number of
pops; every push marks a previously unmarked block, so the fuel
`bb_count + worklist length + 1` supplied by the caller can never run out.
-/
def bfs_drain (successor_counts successors : List Nat) (start_bb : Nat) :
    Nat → List Nat → List Bool → List Bool × List Nat
  | 0, wl, reach => (reach, wl)
  | _ + 1, [], reach => (reach, [])
  | fuel + 1, bbb :: rest, reach =>
    let pushed := bfs_push successors start_bb
      (successor_counts.getD bbb 0) 0 reach rest
    bfs_drain successor_counts successors start_bb fuel pushed.2 pushed.1

/-- Target-range scan of `validate_control_flow` (analyzer.cpp:432-440),
over `k` remaining successor positions starting at `succ`; as in the C++
the flat successor array is read from index 0. -/
def cf_targets (b : IRBuilder) (start_bb bb_count : Nat) : Nat → Nat → Bool
  | 0, _ => true
  | k + 1, succ =>
    let target := b.basic_blocks.successors.getD succ 0
    if target < start_bb ∨ target ≥ start_bb + bb_count then false
    else cf_targets b start_bb bb_count k (succ + 1)

/-- Block loop of `validate_control_flow` (analyzer.cpp:429-457), over `k`
remaining blocks starting at local index `bb`: per block, the successor
range check, then a worklist drain. -/
def cf_bb_loop (b : IRBuilder) (start_bb bb_count : Nat) :
    Nat → Nat → List Bool → List Nat → Option (List Bool)
  | 0, _, reach, _ => some reach
  | k + 1, bb, reach, wl =>
    let curr_bb := start_bb + bb
    if ¬ cf_targets b start_bb bb_count
        (b.basic_blocks.successor_counts.getD curr_bb 0) 0 then none
    else
      let drained := bfs_drain b.basic_blocks.successor_counts
        b.basic_blocks.successors start_bb (bb_count + wl.length + 1) wl reach
      cf_bb_loop b start_bb bb_count k (bb + 1) drained.1 drained.2

/-- Reachability sweep of `validate_control_flow` (analyzer.cpp:458-465)
over `k` remaining blocks starting at local index `bb`. -/
def cf_all_reachable (reach : List Bool) : Nat → Nat → Bool
  | 0, _ => true
  | k + 1, bb =>
    if ¬ reach.getD bb false then false
    else cf_all_reachable reach k (bb + 1)

/-- Terminator sweep of `validate_control_flow` (analyzer.cpp:467-482) over
`k` remaining blocks starting at local index `bb`: a block with no recorded
successors must end in `FLOW_RETURN` or `FLOW_UNREACHABLE`. -/
def cf_terminators (b : IRBuilder) (start_bb : Nat) : Nat → Nat → Bool
  | 0, _ => true
  | k + 1, bb =>
    let curr_bb := start_bb + bb
    if b.basic_blocks.successor_counts.getD curr_bb 0 = 0 then
      let last_inst := b.basic_blocks.start_indices.getD curr_bb 0 +
        b.basic_blocks.instruction_counts.getD curr_bb 0 - 1
      if b.instructions.ops.getD last_inst 0 ≠ FLOW_RETURN ∧
          b.instructions.ops.getD last_inst 0 ≠ FLOW_UNREACHABLE then false
      else cf_terminators b start_bb k (bb + 1)
    else cf_terminators b start_bb k (bb + 1)

/-- Function loop of `validate_control_flow` (analyzer.cpp:413-483) over `k`
remaining functions starting at `func`. -/
def cf_funcs (b : IRBuilder) : Nat → Nat → Bool
  | 0, _ => true
  | k + 1, func =>
    let start_bb := b.functions.bb_start_indices.getD func 0
    let bb_count := b.functions.bb_counts.getD func 0
    if b.basic_blocks.predecessor_counts.getD start_bb 0 ≠ 0 then false
    else
      let reach0 := (List.replicate bb_count false).set 0 true
      match cf_bb_loop b start_bb bb_count bb_count 0 reach0 [start_bb] with
      | none => false
      | some reach =>
        if ¬ cf_all_reachable reach bb_count 0 then false
        else if ¬ cf_terminators b start_bb bb_count 0 then false
        else cf_funcs b k (func + 1)

/-- Embeds `IRAnalyzer::validate_control_flow` (analyzer.cpp:406-486):
(a) the entry block must have zero recorded predecessors, (b) successor ids
must stay in the function's block range (read from the flat array as in the
C++), (c) blocks not reached from the entry fail, (d) a block with no
successors must end in `FLOW_RETURN` or `FLOW_UNREACHABLE`. -/
def validate_control_flow (b : IRBuilder) : Bool :=
  cf_funcs b b.functions.bb_counts.length 0

/-! ### Claims C1, C2, C3, C4: concrete programs built through the builder
API and evaluated by the validators. -/

/-- Program for claim C1: `use_before_def() -> i32` with a single block
holding a type-marker constant, an `OP_ADD` whose operands name register 2 —
neither a parameter (the function has none) nor the destination of an
earlier instruction (the earlier destinations are 0) — and a return. -/
def c1calls : List BuilderCall :=
  [.create_function "use_before_def" [] TYPE_I32,
   .create_bb,
   .add_instruction TYPE_I32 [5],
   .add_instruction OP_ADD [2, 2],
   .add_instruction FLOW_RETURN [1]]

/-- Claim C1: a non-phi, non-type-marker instruction using an operand
register that is neither a parameter nor an earlier destination should make
`validate_ssa` return false; on the embedded code the C1 program builds
successfully and `validate_ssa` nevertheless returns true, because
`add_instruction` fills `immediate_ops` for every instruction and both
passes of `validate_ssa` treat a non-empty `immediate_ops` entry as an
immediate-carrying definition and skip the operand check. -/
theorem c1_validate_ssa_accepts_use_before_def :
    (build_sealed c1calls).map validate_ssa = some true := by
  decide

/-- Program for claim C2: the S2 control-flow diamond
`control_flow_test() -> i32` — entry computes an `OP_LT` condition and
branches to blocks then (1) and else (2), each jumps to merge (3), which
holds an `SSA_PHI` over both predecessors and a return. -/
def s2calls : List BuilderCall :=
  [.create_function "control_flow_test" [] TYPE_I32,
   .create_bb,
   .add_instruction TYPE_I32 [5],
   .add_instruction TYPE_I32 [10],
   .add_instruction OP_LT [0, 1],
   .create_bb, .create_bb, .create_bb,
   .set_current_bb 0,
   .add_instruction FLOW_BRANCH [2, 1, 2],
   .set_current_bb 1,
   .add_instruction TYPE_I32 [42],
   .add_instruction FLOW_JUMP [3],
   .set_current_bb 2,
   .add_instruction TYPE_I32 [24],
   .add_instruction FLOW_JUMP [3],
   .set_current_bb 3,
   .add_instruction SSA_PHI [4, 1, 5, 2],
   .add_instruction FLOW_RETURN [6]]

/-- Claim C2: the S2 diamond should pass `validate_control_flow`; on the
embedded code it fails, because no builder operation ever records successor
or predecessor edges (`bb_list.successors` stays empty), so the then, else
and merge blocks are unreachable in the breadth-first sweep. -/
theorem c2_validate_control_flow_rejects_diamond :
    (build_sealed s2calls).map validate_control_flow = some false := by
  decide

/-- Program for claim C3: the S3 zero-extension scenario
`type_conversion_test() -> i64` — an `i32` constant 42, a `CONV_ZEXT` of
register 0 recorded via `add_conversion` with from-type `i32` and to-type
`i64`, then a return of the result. -/
def s3calls : List BuilderCall :=
  [.create_function "type_conversion_test" [] TYPE_I64,
   .create_bb,
   .add_instruction TYPE_I32 [42],
   .add_conversion CONV_ZEXT [0] TYPE_I32 TYPE_I64,
   .add_instruction FLOW_RETURN [1]]

/-- Claim C3: the S3 program should pass `validate_type`; on the embedded
code it fails, because operand collection reads the flat operand array from
index 0 — for the `CONV_ZEXT` it reads 42, the first constant's immediate,
as a register id, which is out of range (3 registers exist). -/
theorem c3_validate_type_rejects_s3 :
    (build_sealed s3calls).map validate_type = some false := by
  decide

/-- Program for claim C4: two type-marker constants of types `i32` and
`i64` (immediates 7 and 3), an `OP_ADD` over registers 0 and 1, a return. -/
def c4calls : List BuilderCall :=
  [.create_function "add_test" [] TYPE_I64,
   .create_bb,
   .add_instruction TYPE_I32 [7],
   .add_instruction TYPE_I64 [3],
   .add_instruction OP_ADD [0, 1],
   .add_instruction FLOW_RETURN [2]]

/-- Claim C4: an `OP_ADD` whose two operand registers are defined with
types `i32` and `i64` should be accepted with destination type `i64`; on
the embedded code `validate_type` rejects the C4 program, because operand
collection reads the flat operand array from index 0 — it reads 7, the
first constant's immediate, as a register id, which is out of range
(4 registers exist). -/
theorem c4_validate_type_rejects_add :
    (build_sealed c4calls).map validate_type = some false := by
  decide

/-! ### Claim C9: builder invariants

`BuilderInv` is the inductive invariant maintained by every builder call:
destinations form the identity sequence, every recorded block index is a
real block, the per-function block ranges tile the block list, and the
current-function cursor always points at the most recently created
function. -/

theorem getD_set_self {α} (l : List α) (i : Nat) (v d : α) (h : i < l.length) :
    (l.set i v).getD i d = v := by
  rw [List.getD_eq_getElem _ _ (by simpa using h)]
  simp [List.getElem_set]

theorem getD_set_other {α} (l : List α) (i j : Nat) (v d : α) (h : i ≠ j) :
    (l.set i v).getD j d = l.getD j d := by
  by_cases hj : j < l.length
  · rw [List.getD_eq_getElem _ _ (by simpa using hj),
      List.getD_eq_getElem _ _ hj]
    simp [List.getElem_set, h]
  · rw [List.getD_eq_default _ _ (by simp; omega),
      List.getD_eq_default _ _ (by omega)]

theorem getD_append_last {α} (l : List α) (a d : α) :
    (l ++ [a]).getD l.length d = a := by
  rw [List.getD_append_right _ _ _ _ (Nat.le_refl _)]
  simp

theorem getD_range (n i : Nat) (h : i < n) : (List.range n).getD i 0 = i := by
  rw [List.getD_eq_getElem _ _ (by simpa using h)]
  simp

/-- Invariant of the builder state, preserved by every `BuilderCall`. -/
structure BuilderInv (st : IRBuilder) : Prop where
  dest_range : st.instructions.destinations =
    List.range st.instructions.destinations.length
  bb_in_range : ∀ x ∈ st.instructions.bb_indices,
    x < st.basic_blocks.start_indices.length
  ic_len : st.basic_blocks.instruction_counts.length =
    st.basic_blocks.start_indices.length
  fn_len : st.functions.bb_counts.length =
    st.functions.bb_start_indices.length
  cur_fn : ∀ f, st.current_function = some f →
    f + 1 = st.functions.bb_counts.length
  cover_last : st.functions.bb_counts.length ≠ 0 →
    st.functions.bb_start_indices.getD (st.functions.bb_counts.length - 1) 0 +
      st.functions.bb_counts.getD (st.functions.bb_counts.length - 1) 0 =
      st.basic_blocks.start_indices.length
  coverage : ∀ bidx, bidx < st.basic_blocks.start_indices.length →
    ∃ f, f < st.functions.bb_counts.length ∧
      st.functions.bb_start_indices.getD f 0 ≤ bidx ∧
      bidx < st.functions.bb_start_indices.getD f 0 +
        st.functions.bb_counts.getD f 0

theorem inv_init : BuilderInv initBuilder := by
  constructor <;> simp [initBuilder]

theorem inv_create_function (st : IRBuilder) (hinv : BuilderInv st)
    (name : String) (pt : List Nat) (rt : Nat) (st2 : IRBuilder)
    (h : create_function st name pt rt = some st2) : BuilderInv st2 := by
  unfold create_function at h
  by_cases hs : st.is_sealed
  · simp [hs] at h
  · rw [if_neg hs, Option.some.injEq] at h
    subst h
    obtain ⟨d1, d2, d3, d4, d5, d6, d7⟩ := hinv
    constructor
    · exact d1
    · exact d2
    · exact d3
    · simp [d4]
    · intro f hf
      simp only [Option.some.injEq] at hf
      subst hf
      simp [d4]
    · intro _
      simp only [List.length_append, List.length_singleton,
        Nat.add_sub_cancel]
      rw [show st.functions.bb_counts.length = st.functions.bb_start_indices.length from d4,
        getD_append_last, ← d4, getD_append_last]
      omega
    · intro bidx hb
      obtain ⟨f, hf1, hf2, hf3⟩ := d7 bidx hb
      refine ⟨f, ?_, ?_, ?_⟩
      · simp only [List.length_append, List.length_singleton]
        omega
      · rwa [List.getD_append _ _ _ _ (by omega)]
      · rw [List.getD_append _ _ _ _ (by omega),
          List.getD_append _ _ _ _ (by omega)]
        exact hf3

theorem inv_create_bb (st : IRBuilder) (hinv : BuilderInv st) (st2 : IRBuilder)
    (h : create_bb st = some st2) : BuilderInv st2 := by
  unfold create_bb at h
  by_cases hs : st.is_sealed
  · simp [hs] at h
  · rw [if_neg hs] at h
    cases hcur : st.current_function with
    | none => rw [hcur] at h; simp at h
    | some f =>
      rw [hcur] at h
      dsimp only at h
      by_cases hf : f < st.functions.bb_counts.length
      · rw [if_pos hf, Option.some.injEq] at h
        subst h
        obtain ⟨d1, d2, d3, d4, d5, d6, d7⟩ := hinv
        have hlast : f + 1 = st.functions.bb_counts.length := d5 f hcur
        have hne : st.functions.bb_counts.length ≠ 0 := by omega
        have hcov := d6 hne
        constructor
        · exact d1
        · intro x hx
          have := d2 x hx
          simp only [List.length_append, List.length_singleton]
          omega
        · simp [d3]
        · simp [d4]
        · intro g hg
          simp only [Option.some.injEq] at hg
          subst hg
          simpa using hlast
        · intro _
          simp only [List.length_set, List.length_append, List.length_singleton]
          have hidx : st.functions.bb_counts.length - 1 = f := by omega
          rw [hidx] at hcov ⊢
          rw [getD_set_self _ _ _ _ hf]
          omega
        · intro bidx hb
          simp only [List.length_append, List.length_singleton] at hb
          dsimp only
          simp only [List.length_set]
          have hidx : st.functions.bb_counts.length - 1 = f := by omega
          rw [hidx] at hcov
          rcases Nat.lt_or_ge bidx st.basic_blocks.start_indices.length
            with hlt | hge
          · obtain ⟨g, hg1, hg2, hg3⟩ := d7 bidx hlt
            refine ⟨g, by simpa using hg1, hg2, ?_⟩
            by_cases hgf : g = f
            · subst hgf
              rw [getD_set_self _ _ _ _ hf]
              omega
            · rw [getD_set_other _ _ _ _ _ (fun hh => hgf hh.symm)]
              exact hg3
          · have hbe : bidx = st.basic_blocks.start_indices.length := by omega
            subst hbe
            refine ⟨f, by simpa using hf, by omega, ?_⟩
            rw [getD_set_self _ _ _ _ hf]
            omega
      · simp [hf] at h

theorem inv_add_instruction (st : IRBuilder) (hinv : BuilderInv st)
    (op : Nat) (opnds : List Nat) (st2 : IRBuilder)
    (h : add_instruction st op opnds = some st2) : BuilderInv st2 := by
  unfold add_instruction at h
  by_cases hs : st.is_sealed
  · simp [hs] at h
  · rw [if_neg hs] at h
    cases hcf : st.current_function with
    | none => rw [hcf] at h; simp at h
    | some f =>
      cases hcb : st.current_bb with
      | none => rw [hcf, hcb] at h; simp at h
      | some bb =>
        rw [hcf, hcb] at h
        dsimp only at h
        by_cases hbb : bb < st.basic_blocks.instruction_counts.length
        · rw [if_pos hbb, Option.some.injEq] at h
          subst h
          obtain ⟨d1, d2, d3, d4, d5, d6, d7⟩ := hinv
          constructor
          · dsimp only
            rw [List.length_append, List.length_singleton, List.range_succ,
              ← d1]
          · intro x hx
            dsimp only at hx ⊢
            rcases List.mem_append.mp hx with hx2 | hx2
            · exact d2 x hx2
            · have hxe : x = bb := by simpa using hx2
              subst hxe
              omega
          · simp [d3]
          · exact d4
          · intro g hg
            simp only [Option.some.injEq] at hg
            subst hg
            exact d5 f hcf
          · exact d6
          · exact d7
        · rw [if_neg hbb] at h
          simp at h

theorem inv_add_conversion (st : IRBuilder) (hinv : BuilderInv st)
    (op : Nat) (opnds : List Nat) (ft tt : Nat) (st2 : IRBuilder)
    (h : add_conversion st op opnds ft tt = some st2) : BuilderInv st2 := by
  unfold add_conversion at h
  cases hai : add_instruction st op opnds with
  | none => rw [hai] at h; simp at h
  | some st1 =>
    rw [hai] at h
    dsimp only [Option.map] at h
    rw [Option.some.injEq] at h
    subst h
    obtain ⟨d1, d2, d3, d4, d5, d6, d7⟩ := inv_add_instruction st hinv op opnds st1 hai
    exact ⟨d1, d2, d3, d4, d5, d6, d7⟩

theorem inv_add_memory_op (st : IRBuilder) (hinv : BuilderInv st)
    (op : Nat) (opnds : List Nat) (vt : Nat) (st2 : IRBuilder)
    (h : add_memory_op st op opnds vt = some st2) : BuilderInv st2 := by
  unfold add_memory_op at h
  cases hai : add_instruction st op opnds with
  | none => rw [hai] at h; simp at h
  | some st1 =>
    rw [hai] at h
    dsimp only [Option.map] at h
    rw [Option.some.injEq] at h
    subst h
    obtain ⟨d1, d2, d3, d4, d5, d6, d7⟩ := inv_add_instruction st hinv op opnds st1 hai
    exact ⟨d1, d2, d3, d4, d5, d6, d7⟩

theorem inv_set_current_bb (st : IRBuilder) (hinv : BuilderInv st)
    (bb : Nat) (st2 : IRBuilder)
    (h : set_current_bb st bb = some st2) : BuilderInv st2 := by
  unfold set_current_bb at h
  by_cases hs : st.is_sealed
  · simp [hs] at h
  · rw [if_neg hs, Option.some.injEq] at h
    subst h
    obtain ⟨d1, d2, d3, d4, d5, d6, d7⟩ := hinv
    exact ⟨d1, d2, d3, d4, d5, d6, d7⟩

theorem inv_step (st : IRBuilder) (hinv : BuilderInv st) (c : BuilderCall)
    (st2 : IRBuilder) (h : builder_step st c = some st2) : BuilderInv st2 := by
  cases c with
  | create_function name pt rt => exact inv_create_function st hinv name pt rt st2 h
  | create_bb => exact inv_create_bb st hinv st2 h
  | add_instruction op opnds => exact inv_add_instruction st hinv op opnds st2 h
  | add_conversion op opnds ft tt => exact inv_add_conversion st hinv op opnds ft tt st2 h
  | add_memory_op op opnds vt => exact inv_add_memory_op st hinv op opnds vt st2 h
  | set_current_bb bb => exact inv_set_current_bb st hinv bb st2 h

theorem inv_run_calls (cs : List BuilderCall) : ∀ st st2, BuilderInv st →
    run_calls st cs = some st2 → BuilderInv st2 := by
  induction cs with
  | nil =>
    intro st st2 hinv h
    simp only [run_calls, Option.some.injEq] at h
    subst h
    exact hinv
  | cons c cs ih =>
    intro st st2 hinv h
    unfold run_calls at h
    cases hc : builder_step st c with
    | none => rw [hc] at h; simp at h
    | some st1 =>
      rw [hc] at h
      dsimp only at h
      exact ih st1 st2 (inv_step st hinv c st1 hc) h

theorem inv_build_sealed (cs : List BuilderCall) (st : IRBuilder)
    (h : build_sealed cs = some st) : BuilderInv st := by
  unfold build_sealed at h
  cases hr : run_calls initBuilder cs with
  | none => rw [hr] at h; simp at h
  | some st1 =>
    rw [hr] at h
    dsimp only [Option.map] at h
    rw [Option.some.injEq] at h
    subst h
    obtain ⟨d1, d2, d3, d4, d5, d6, d7⟩ := inv_run_calls cs initBuilder st1 inv_init hr
    exact ⟨d1, d2, d3, d4, d5, d6, d7⟩

/-- Claim C9: for every sequence of builder calls whose execution succeeds
(all method preconditions hold and no vector access is out of bounds),
after sealing, every instruction's destination register equals its own
index, and every instruction's recorded block index lies within the block
range of a function — necessarily the function containing the instruction,
since the per-function ranges `[bb_start, bb_start + bb_count)` tile the
block list. -/
theorem c9_destinations_and_block_ranges (cs : List BuilderCall)
    (st : IRBuilder) (h : build_sealed cs = some st) :
    (∀ i, i < st.instructions.destinations.length →
      st.instructions.destinations.getD i 0 = i) ∧
    (∀ i, i < st.instructions.bb_indices.length →
      ∃ f, f < st.functions.bb_counts.length ∧
        st.functions.bb_start_indices.getD f 0 ≤
          st.instructions.bb_indices.getD i 0 ∧
        st.instructions.bb_indices.getD i 0 <
          st.functions.bb_start_indices.getD f 0 +
            st.functions.bb_counts.getD f 0) := by
  obtain ⟨d1, d2, d3, d4, d5, d6, d7⟩ := inv_build_sealed cs st h
  constructor
  · intro i hi
    conv_lhs => rw [d1]
    exact getD_range _ _ hi
  · intro i hi
    have hmem : st.instructions.bb_indices.getD i 0 ∈ st.instructions.bb_indices := by
      rw [List.getD_eq_getElem _ _ hi]
      exact List.getElem_mem _
    exact d7 _ (d2 _ hmem)

/-- Concrete builder-call sequence for the c9 witness. -/
def c9calls : List BuilderCall :=
  [.create_function "w" [] TYPE_I32,
   .create_bb,
   .add_instruction TYPE_I32 [1],
   .add_instruction FLOW_RETURN [0]]

/-- Sealed state of the c9 witness sequence. -/
def c9state : IRBuilder := (build_sealed c9calls).getD initBuilder

/-- Witness for c9_destinations_and_block_ranges on the concrete sequence
`c9calls`. -/
theorem c9_witness :
    build_sealed c9calls = some c9state ∧
    ((∀ i, i < c9state.instructions.destinations.length →
      c9state.instructions.destinations.getD i 0 = i) ∧
    (∀ i, i < c9state.instructions.bb_indices.length →
      ∃ f, f < c9state.functions.bb_counts.length ∧
        c9state.functions.bb_start_indices.getD f 0 ≤
          c9state.instructions.bb_indices.getD i 0 ∧
        c9state.instructions.bb_indices.getD i 0 <
          c9state.functions.bb_start_indices.getD f 0 +
            c9state.functions.bb_counts.getD f 0)) :=
  ⟨by rfl, c9_destinations_and_block_ranges c9calls c9state (by rfl)⟩

/-! ## Lexer (src/compiler/src/lexer.cpp)

The lexer is embedded over byte lists. Loops carry an explicit fuel
argument; every loop of the C++ either returns or advances its position by
at least one byte per iteration and stops once the position passes the end
of the buffer, so the fuel `src.length + 1` supplied by each caller is never
exhausted and the functions compute exactly what the C++ loops compute.
Reads past the end of the buffer (which the C++ performs on the
NUL-terminated backing buffer, e.g. `current[has_next]` at the end of
input) are modelled by `get_byte`, which yields 0 there. -/

/-- C locale `isalpha` for byte values. -/
def is_alpha (c : Nat) : Bool := (65 ≤ c ∧ c ≤ 90) ∨ (97 ≤ c ∧ c ≤ 122)

/-- C locale `isdigit` for byte values. -/
def is_digit (c : Nat) : Bool := 48 ≤ c ∧ c ≤ 57

/-- C locale `isspace` for byte values. -/
def is_space (c : Nat) : Bool := (9 ≤ c ∧ c ≤ 13) ∨ c = 32

/-- C locale `ispunct` for byte values. -/
def is_punct (c : Nat) : Bool :=
  (33 ≤ c ∧ c ≤ 47) ∨ (58 ≤ c ∧ c ≤ 64) ∨ (91 ≤ c ∧ c ≤ 96) ∨
    (123 ≤ c ∧ c ≤ 126)

/-- The 256-entry classification table `char_type` (lexer.cpp:14-27):
1 whitespace, 2 slash, 3 star, 4 identifier start, 5 digit, 6 quote,
0 everything else. The C++ builds the entry as a sum of products of
mutually exclusive conditions; the if-chain below picks the same unique
category. -/
def char_type (c : Nat) : Nat :=
  if c = 32 ∨ c = 9 ∨ c = 10 ∨ c = 13 then 1
  else if c = 47 then 2
  else if c = 42 then 3
  else if is_alpha c ∨ c = 95 ∨ c = 64 then 4
  else if is_digit c then 5
  else if c = 34 then 6
  else 0

/-- The single-character operator table `single_char_tokens`
(lexer.cpp:29-60), byte to token kind code, defaulting to UNKNOWN (84). -/
def single_char_tokens (c : Nat) : Nat :=
  if c = 43 then 48
  else if c = 45 then 49
  else if c = 42 then 50
  else if c = 47 then 51
  else if c = 37 then 52
  else if c = 61 then 53
  else if c = 33 then 54
  else if c = 60 then 55
  else if c = 62 then 56
  else if c = 38 then 57
  else if c = 124 then 58
  else if c = 94 then 59
  else if c = 126 then 60
  else if c = 46 then 61
  else if c = 40 then 62
  else if c = 41 then 63
  else if c = 123 then 64
  else if c = 125 then 65
  else if c = 91 then 66
  else if c = 93 then 67
  else if c = 44 then 68
  else if c = 58 then 69
  else if c = 59 then 70
  else if c = 63 then 71
  else 84

/-- The `hex_lookup` table (lexer.cpp:72-82). -/
def hex_lookup (c : Nat) : Bool :=
  is_digit c ∨ (97 ≤ c ∧ c ≤ 102) ∨ (65 ≤ c ∧ c ≤ 70)

/-- The `bin_lookup` table (lexer.cpp:84-89). -/
def bin_lookup (c : Nat) : Bool := c = 48 ∨ c = 49

/-- The `valid_escapes` table (lexer.cpp:91-97): n t r backslash quote 0 x. -/
def valid_escapes (c : Nat) : Bool :=
  c = 110 ∨ c = 116 ∨ c = 114 ∨ c = 92 ∨ c = 34 ∨ c = 48 ∨ c = 120

/-- One lexed token, mirroring `token_t`. -/
structure Token where
  start : Nat
  length : Nat
  type : Nat
  flags : Nat

/-- The static keyword table `token_map` (tokens.h:142-232) as byte lists
paired with token kind codes; note the quirk that the entry spelled
delete maps to the same code 32 as new, as in the source. -/
def token_map : List (List Nat × Nat) :=
  [([116, 114, 117, 101], 0),
   ([102, 97, 108, 115, 101], 1),
   ([110, 117, 108, 108], 2),
   ([105, 109, 112, 111, 114, 116], 3),
   ([118, 97, 114], 4),
   ([99, 111, 110, 115, 116], 5),
   ([102, 117, 110, 99, 116, 105, 111, 110], 6),
   ([105, 110, 108, 105, 110, 101], 7),
   ([114, 101, 116, 117, 114, 110], 8),
   ([101, 110, 117, 109], 9),
   ([105, 102], 10),
   ([101, 108, 115, 101], 11),
   ([102, 111, 114], 12),
   ([119, 104, 105, 108, 101], 13),
   ([98, 114, 101, 97, 107], 14),
   ([99, 111, 110, 116, 105, 110, 117, 101], 15),
   ([115, 119, 105, 116, 99, 104], 16),
   ([99, 97, 115, 101], 17),
   ([100, 101, 102, 97, 117, 108, 116], 18),
   ([99, 108, 97, 115, 115], 19),
   ([102, 105, 110, 97, 108], 20),
   ([112, 117, 98, 108, 105, 99], 21),
   ([112, 114, 105, 118, 97, 116, 101], 22),
   ([97, 119, 97, 105, 116], 25),
   ([97, 115, 121, 110, 99], 26),
   ([116, 114, 121], 27),
   ([99, 97, 116, 99, 104], 28),
   ([115, 116, 97, 116, 105, 99], 24),
   ([102, 114, 111, 109], 29),
   ([97, 115], 30),
   ([111, 112, 101, 114, 97, 116, 111, 114], 31),
   ([110, 101, 119], 32),
   ([100, 101, 108, 101, 116, 101], 32),
   ([117, 56], 34),
   ([105, 56], 35),
   ([117, 49, 54], 36),
   ([105, 49, 54], 37),
   ([117, 51, 50], 38),
   ([105, 51, 50], 39),
   ([117, 54, 52], 40),
   ([105, 54, 52], 41),
   ([102, 51, 50], 42),
   ([102, 54, 52], 43),
   ([115, 116, 114, 105, 110, 103], 44),
   ([98, 111, 111, 108, 101, 97, 110], 45),
   ([118, 111, 105, 100], 46),
   ([80, 116, 114], 47),
   ([43], 48),
   ([45], 49),
   ([42], 50),
   ([47], 51),
   ([37], 52),
   ([61], 53),
   ([33], 54),
   ([60], 55),
   ([62], 56),
   ([38], 57),
   ([124], 58),
   ([94], 59),
   ([126], 60),
   ([46], 61),
   ([40], 62),
   ([41], 63),
   ([123], 64),
   ([125], 65),
   ([91], 66),
   ([93], 67),
   ([44], 68),
   ([58], 69),
   ([59], 70),
   ([63], 71),
   ([64, 97, 108, 105, 103, 110], 72),
   ([64, 100, 101, 112, 114, 101, 99, 97, 116, 101, 100], 73),
   ([64, 112, 97, 99, 107, 101, 100], 74),
   ([64, 110, 111, 100, 105, 115, 99, 97, 114, 100], 75),
   ([64, 118, 111, 108, 97, 116, 105, 108, 101], 76),
   ([64, 108, 97, 122, 121], 77),
   ([64, 112, 117, 114, 101], 78),
   ([64, 116, 97, 105, 108, 114, 101, 99], 79)]

/-- Linear scan of `token_map` in `lex_identifier` (lexer.cpp:262-271):
length equality plus `memcmp` is byte-list equality; unmatched slices
become IDENTIFIER (80). -/
def map_lookup : List (List Nat × Nat) → List Nat → Nat
  | [], _ => 80
  | (txt, ty) :: rest, s => if txt = s then ty else map_lookup rest s

/-- The byte slice `[start, start+len)` of the source. -/
def byte_slice (src : List Nat) (start len : Nat) : List Nat :=
  (src.drop start).take len

/-- Line-table update of `skip_whitespace_comment` (lexer.cpp:166-170 and
190-194): `resize(curr_size + is_newline)` followed by two compound
assignments to `line_starts[curr_size]`. On a newline the element exists
(index = old size, new size = old size + 1) and ends up holding `pos + 1`;
on any other byte the vector is not grown and both compound assignments
access index `curr_size` = size, one past the end — the returned access log
records the pair (index, size after resize) for each processed byte, and
the out-of-bounds writes are modelled as no-ops. -/
def line_track (ls : List Nat) (log : List (Nat × Nat)) (is_nl : Bool)
    (pos : Nat) : List Nat × List (Nat × Nat) :=
  let curr_size := ls.length
  if is_nl then (ls ++ [pos + 1], log ++ [(curr_size, curr_size + 1)])
  else (ls, log ++ [(curr_size, curr_size)])

/-- Number of leading space bytes in the 8-byte window at `pos`:
`__builtin_ctzll(chunk ^ 0x2020..20) / 8` for a little-endian load, i.e.
the index of the first byte that differs from 0x20. -/
def lead_spaces (src : List Nat) (pos : Nat) : Nat :=
  (((List.range 8).find? fun k => get_byte src (pos + k) != 32)).getD 0

/-- SIMD-style prologue of `skip_whitespace_comment` (lexer.cpp:142-158):
skip 8-byte chunks that are entirely spaces (`chunk ^ 0x2020..20 == 0`);
stop without advancing on a chunk of 8 slashes; otherwise advance to the
first non-space byte of the window and stop. -/
def skip_chunks (src : List Nat) : Nat → Nat → Nat
  | 0, pos => pos
  | fuel + 1, pos =>
    if pos + 8 ≤ src.length then
      if (List.range 8).all (fun k => get_byte src (pos + k) == 32) then
        skip_chunks src fuel (pos + 8)
      else if (List.range 8).all (fun k => get_byte src (pos + k) == 47) then
        pos
      else pos + lead_spaces src pos
    else pos

/-- Single-line comment scan (lexer.cpp:180-181): advance to the next
newline or the end of input. -/
def line_comment_skip (src : List Nat) : Nat → Nat → Nat
  | 0, pos => pos
  | fuel + 1, pos =>
    if pos < src.length then
      if get_byte src pos = 10 then pos
      else line_comment_skip src fuel (pos + 1)
    else pos

/-- Multi-line comment scan (lexer.cpp:184-198): while at least two bytes
remain, track newlines in the line table, and leave after a star-slash
pair (advancing past it) or at the end of input. -/
def multi_comment_skip (src : List Nat) :
    Nat → Nat → List Nat → List (Nat × Nat) →
    Nat × List Nat × List (Nat × Nat)
  | 0, pos, ls, log => (pos, ls, log)
  | fuel + 1, pos, ls, log =>
    if pos + 1 < src.length then
      let eoc := get_byte src pos = 42 ∧ get_byte src (pos + 1) = 47
      let nl := get_byte src pos = 10
      let tl := line_track ls log nl pos
      if eoc then (pos + 2, tl.1, tl.2)
      else multi_comment_skip src fuel (pos + 1) tl.1 tl.2
    else (pos, ls, log)

/-- Main loop of `skip_whitespace_comment` (lexer.cpp:160-205): classify
the current byte, track the line table (with its out-of-bounds access on
non-newline bytes), then consume a single-line comment, a multi-line
comment, or one whitespace byte, returning at the first byte that starts a
token. -/
def skip_ws_loop (src : List Nat) :
    Nat → Nat → List Nat → List (Nat × Nat) →
    Nat × List Nat × List (Nat × Nat)
  | 0, pos, ls, log => (pos, ls, log)
  | fuel + 1, pos, ls, log =>
    if pos < src.length then
      let c := get_byte src pos
      let ty := char_type c
      let is_nl := c = 10
      let tl := line_track ls log is_nl pos
      let next_char := if pos + 1 < src.length then get_byte src (pos + 1) else 0
      let is_single := ty = 2 ∧ next_char = 47
      let is_multi := ty = 2 ∧ next_char = 42
      if is_single then
        skip_ws_loop src fuel (line_comment_skip src (src.length + 1) (pos + 2))
          tl.1 tl.2
      else if is_multi then
        let r := multi_comment_skip src (src.length + 1) (pos + 2) tl.1 tl.2
        skip_ws_loop src fuel r.1 r.2.1 r.2.2
      else if ty = 1 then
        skip_ws_loop src fuel (pos + 1) tl.1 tl.2
      else (pos, tl.1, tl.2)
    else (pos, ls, log)

/-- Embeds `Lexer::skip_whitespace_comment` (lexer.cpp:138-206): the chunk
prologue, then the main loop. Returns the new position, the line table and
the access log of the line-table writes. -/
def skip_whitespace_comment (src : List Nat) (pos : Nat) (ls : List Nat)
    (log : List (Nat × Nat)) : Nat × List Nat × List (Nat × Nat) :=
  skip_ws_loop src (src.length + 1) (skip_chunks src (src.length + 1) pos) ls log

/-- Identifier byte loop of `lex_identifier` (lexer.cpp:240-257): consume
alphanumeric or underscore bytes; an invalid byte that is neither space nor
punctuation sets INVALID_IDENTIFIER_CHAR (128) before the loop breaks.
Returns the final position and flags. -/
def ident_loop (src : List Nat) : Nat → Nat → Nat → Nat × Nat
  | 0, cur, flags => (cur, flags)
  | fuel + 1, cur, flags =>
    if cur < src.length then
      let c := get_byte src cur
      let is_valid := is_alpha c ∨ is_digit c ∨ c = 95
      let is_terminator := ¬ is_valid ∧ (is_space c ∨ is_punct c)
      let flags2 := flags ||| (if ¬ is_valid ∧ ¬ is_terminator then 128 else 0)
      if is_valid then ident_loop src fuel (cur + 1) flags2
      else (cur, flags2)
    else (cur, flags)

/-- Embeds `Lexer::lex_identifier` (lexer.cpp:228-272): flag an invalid
start byte (64), skip a leading at-sign, consume identifier bytes, then
classify the slice through the keyword table. -/
def lex_identifier (src : List Nat) (pos : Nat) : Token :=
  let c0 := get_byte src pos
  let is_valid_start := c0 = 95 ∨ c0 = 64 ∨ is_alpha c0
  let flags0 := if is_valid_start then 0 else 64
  let cur0 := pos + (if c0 = 64 then 1 else 0)
  let r := ident_loop src (src.length + 1) cur0 flags0
  Token.mk pos (r.1 - pos) (map_lookup token_map (byte_slice src pos (r.1 - pos)))
    r.2

/-- Digit chunk loop of `lex_number` (lexer.cpp:283-291): advance by 8
while the next 8 bytes are all decimal digits (the branchless byte test
`(chunk - 0x3030..30 | chunk + 0x4646..46) & 0x8080..80` is zero exactly
when every byte lies in 0x30..0x39). -/
def digit_chunks (src : List Nat) : Nat → Nat → Nat
  | 0, cur => cur
  | fuel + 1, cur =>
    if cur + 8 ≤ src.length ∧
        (List.range 8).all (fun k => is_digit (get_byte src (cur + k))) then
      digit_chunks src fuel (cur + 8)
    else cur

/-- Number body loop of `lex_number` (lexer.cpp:305-323): hex digits in hex
mode, 0/1 in binary mode, otherwise decimal digits and dots; a second dot
sets MULTIPLE_DECIMAL_POINTS (8). Returns position, dot count and flags. -/
def num_body (src : List Nat) (ishex isbin : Bool) :
    Nat → Nat → Nat → Nat → Nat × Nat × Nat
  | 0, cur, hd, fl => (cur, hd, fl)
  | fuel + 1, cur, hd, fl =>
    if cur < src.length then
      let c := get_byte src cur
      let is_dot := c = 46
      let valid := (ishex ∧ hex_lookup c) ∨ (isbin ∧ bin_lookup c) ∨
        (¬ ishex ∧ ¬ isbin ∧ (is_digit c ∨ is_dot))
      if valid then
        let hd2 := hd + (if is_dot then 1 else 0)
        let fl2 := fl ||| (if hd2 > 1 then 8 else 0)
        num_body src ishex isbin fuel (cur + 1) hd2 fl2
      else (cur, hd, fl)
    else (cur, hd, fl)

/-- Exponent digit run of `lex_number` (lexer.cpp:336-337). -/
def exp_digits (src : List Nat) : Nat → Nat → Nat
  | 0, cur => cur
  | fuel + 1, cur =>
    if cur < src.length ∧ is_digit (get_byte src cur) then
      exp_digits src fuel (cur + 1)
    else cur

/-- Exponent handling of `lex_number` (lexer.cpp:325-337): an optional
e/E, an optional sign, then digits; INVALID_EXPONENT (16) when the e is not
followed by a valid digit. Returns the final position and the flag bits. -/
def num_tail (src : List Nat) (cur2 : Nat) : Nat × Nat :=
  let at_exp := cur2 < src.length
  let is_exp := at_exp ∧ (get_byte src cur2 ||| 32) = 101
  let cur3 := cur2 + (if is_exp then 1 else 0)
  let has_sign := cur3 < src.length ∧
    (get_byte src cur3 = 43 ∨ get_byte src cur3 = 45)
  let cur4 := cur3 + (if is_exp ∧ has_sign then 1 else 0)
  let exp_valid := cur4 < src.length ∧ is_digit (get_byte src cur4)
  let fl := if is_exp ∧ ¬ exp_valid then 16 else 0
  let cur5 := if is_exp ∧ exp_valid then exp_digits src (src.length + 1) cur4
    else cur4
  (cur5, fl)

/-- Body of `Lexer::lex_number` (lexer.cpp:274-345): digit chunks, the
optional 0x/0b mode switch, the number body, then the exponent tail.
Returns the final position and the flags. -/
def lex_number_scan (src : List Nat) (pos : Nat) : Nat × Nat :=
  let c0 := get_byte src pos
  let cur0 := if is_digit c0 then digit_chunks src (src.length + 1) pos else pos
  let has_next := cur0 + 1 < src.length
  let next := get_byte src (cur0 + (if has_next then 1 else 0))
  let is_zero := get_byte src cur0 = 48
  let is_x := (next ||| 32) = 120
  let is_b := (next ||| 32) = 98
  let ishex : Bool := is_zero ∧ is_x
  let isbin : Bool := is_zero ∧ is_b
  let cur1 := cur0 + (if ishex ∨ isbin then 2 else 0)
  let r := num_body src ishex isbin (src.length + 1) cur1 0 0
  let t := num_tail src r.1
  (t.1, r.2.2 ||| t.2)

/-- Embeds `Lexer::lex_number`: a NUM_LITERAL (81) token covering the
scanned span. -/
def lex_number (src : List Nat) (pos : Nat) : Token :=
  Token.mk pos ((lex_number_scan src pos).1 - pos) 81 (lex_number_scan src pos).2

/-- String byte loop of `lex_string` (lexer.cpp:354-371): pass bytes
through; a backslash advances past its escape (three extra bytes for x);
an invalid escape sets INVALID_ESCAPE_SEQUENCE (2) and ends the token, as
does the closing quote. -/
def str_loop (src : List Nat) : Nat → Nat → Nat → Nat × Nat
  | 0, cur, fl => (cur, fl)
  | fuel + 1, cur, fl =>
    if cur < src.length then
      let c := get_byte src cur
      let is_escape := c = 92
      let has_next := cur + 1 < src.length
      let next := get_byte src (cur + (if has_next then 1 else 0))
      let is_quote := c = 34
      let is_valid_escape := valid_escapes next
      let escape_advance := if is_escape then
        1 + (if next = 120 then 2 else 0) else 0
      let fl2 := fl ||| (if is_escape ∧ ¬ is_valid_escape then 2 else 0)
      let cur2 := cur + 1 + escape_advance
      if is_quote ∨ (is_escape ∧ ¬ is_valid_escape) then (cur2, fl2)
      else str_loop src fuel cur2 fl2
    else (cur, fl)

/-- Embeds `Lexer::lex_string` (lexer.cpp:347-381): scan from the byte
after the opening quote, then set UNTERMINATED_STRING (1) when the scan ran
off the end or did not stop just past a quote. -/
def lex_string (src : List Nat) (pos : Nat) : Token :=
  let r := str_loop src (src.length + 1) (pos + 1) 0
  let fl := r.2 |||
    (if r.1 ≥ src.length ∨ get_byte src (r.1 - 1) ≠ 34 then 1 else 0)
  Token.mk pos (r.1 - pos) 82 fl

/-- Embeds `Lexer::next_token` (lexer.cpp:208-226): skip whitespace and
comments, emit END_OF_FILE (85) at the end of input, otherwise dispatch on
the byte class. Returns the token, the post-skip position and the updated
line table and access log. -/
def next_token (src : List Nat) (pos : Nat) (ls : List Nat)
    (log : List (Nat × Nat)) : Token × Nat × List Nat × List (Nat × Nat) :=
  let s := skip_whitespace_comment src pos ls log
  let p := s.1
  if p ≥ src.length then (Token.mk p 0 85 0, p, s.2.1, s.2.2)
  else
    let c := get_byte src p
    let ty := char_type c
    if ty = 4 then (lex_identifier src p, p, s.2.1, s.2.2)
    else if ty = 5 then (lex_number src p, p, s.2.1, s.2.2)
    else if ty = 6 then (lex_string src p, p, s.2.1, s.2.2)
    else (Token.mk p 1 (single_char_tokens c) 0, p, s.2.1, s.2.2)

/-- Token-emission loop of `Lexer::tokenize` (lexer.cpp:383-397): append
the next token; stop after END_OF_FILE; otherwise advance the position by
the token length past the skipped whitespace. Fuel exhaustion yields
`none`; the position strictly increases on every non-EOF token, so a fuel
of `src.length + 1` always suffices (proved by c8 below). -/
def tokenize_loop (src : List Nat) :
    Nat → Nat → List Nat → List (Nat × Nat) → Option (List Token)
  | 0, _, _, _ => none
  | fuel + 1, pos, ls, log =>
    let r := next_token src pos ls log
    let tok := r.1
    if tok.type = 85 then some [tok]
    else
      match tokenize_loop src fuel (r.2.1 + tok.length) r.2.2.1 r.2.2.2 with
      | none => none
      | some rest => some (tok :: rest)

/-- Embeds `Lexer::tokenize` starting from the constructor state:
position 0, line table holding the single entry 0, empty access log. -/
def tokenize (src : List Nat) : Option (List Token) :=
  tokenize_loop src (src.length + 1) 0 [0] []

/-! ### Claim C8: tokenize terminates with exactly one trailing EOF

The proof is by strong induction on the remaining input: every scanning
loop only moves the position forwards, every non-EOF token has length at
least one, and no token path can produce the END_OF_FILE kind except the
end-of-input branch of `next_token`. -/

theorem skip_chunks_ge (src : List Nat) :
    ∀ fuel pos, pos ≤ skip_chunks src fuel pos := by
  intro fuel
  induction fuel with
  | zero => intro pos; exact Nat.le_refl _
  | succ fuel ih =>
    intro pos
    simp only [skip_chunks]
    split_ifs
    · exact Nat.le_trans (by omega) (ih (pos + 8))
    · exact Nat.le_refl _
    · omega
    · exact Nat.le_refl _

theorem line_comment_skip_ge (src : List Nat) :
    ∀ fuel pos, pos ≤ line_comment_skip src fuel pos := by
  intro fuel
  induction fuel with
  | zero => intro pos; exact Nat.le_refl _
  | succ fuel ih =>
    intro pos
    simp only [line_comment_skip]
    split_ifs
    · exact Nat.le_refl _
    · exact Nat.le_trans (by omega) (ih (pos + 1))
    · exact Nat.le_refl _

theorem multi_comment_skip_ge (src : List Nat) :
    ∀ fuel pos ls log, pos ≤ (multi_comment_skip src fuel pos ls log).1 := by
  intro fuel
  induction fuel with
  | zero => intro pos ls log; exact Nat.le_refl _
  | succ fuel ih =>
    intro pos ls log
    simp only [multi_comment_skip]
    split_ifs <;> (try dsimp only) <;>
      first
        | omega
        | exact Nat.le_trans (by omega) (ih (pos + 1) _ _)

theorem skip_ws_loop_ge (src : List Nat) :
    ∀ fuel pos ls log, pos ≤ (skip_ws_loop src fuel pos ls log).1 := by
  intro fuel
  induction fuel with
  | zero => intro pos ls log; exact Nat.le_refl _
  | succ fuel ih =>
    intro pos ls log
    simp only [skip_ws_loop]
    split_ifs <;>
      first
        | exact Nat.le_refl _
        | exact Nat.le_trans (Nat.le_trans (by omega)
            (line_comment_skip_ge src _ (pos + 2))) (ih _ _ _)
        | exact Nat.le_trans (Nat.le_trans (by omega)
            (multi_comment_skip_ge src _ (pos + 2) _ _)) (ih _ _ _)
        | exact Nat.le_trans (by omega) (ih (pos + 1) _ _)

theorem skip_ge (src : List Nat) (pos : Nat) (ls : List Nat)
    (log : List (Nat × Nat)) :
    pos ≤ (skip_whitespace_comment src pos ls log).1 := by
  unfold skip_whitespace_comment
  exact Nat.le_trans (skip_chunks_ge src _ pos) (skip_ws_loop_ge src _ _ ls log)

theorem ident_loop_ge (src : List Nat) :
    ∀ fuel cur flags, cur ≤ (ident_loop src fuel cur flags).1 := by
  intro fuel
  induction fuel with
  | zero => intro cur flags; exact Nat.le_refl _
  | succ fuel ih =>
    intro cur flags
    simp only [ident_loop]
    split_ifs <;> (try dsimp only) <;>
      first
        | omega
        | exact Nat.le_trans (by omega) (ih (cur + 1) _)

theorem digit_chunks_ge (src : List Nat) :
    ∀ fuel cur, cur ≤ digit_chunks src fuel cur := by
  intro fuel
  induction fuel with
  | zero => intro cur; exact Nat.le_refl _
  | succ fuel ih =>
    intro cur
    simp only [digit_chunks]
    split_ifs
    · exact Nat.le_trans (by omega) (ih (cur + 8))
    · exact Nat.le_refl _

theorem num_body_ge (src : List Nat) (hx hb : Bool) :
    ∀ fuel cur hd fl, cur ≤ (num_body src hx hb fuel cur hd fl).1 := by
  intro fuel
  induction fuel with
  | zero => intro cur hd fl; exact Nat.le_refl _
  | succ fuel ih =>
    intro cur hd fl
    simp only [num_body]
    split_ifs <;> (try dsimp only) <;>
      first
        | omega
        | exact Nat.le_trans (by omega) (ih (cur + 1) _ _)

theorem exp_digits_ge (src : List Nat) :
    ∀ fuel cur, cur ≤ exp_digits src fuel cur := by
  intro fuel
  induction fuel with
  | zero => intro cur; exact Nat.le_refl _
  | succ fuel ih =>
    intro cur
    simp only [exp_digits]
    split_ifs
    · exact Nat.le_trans (by omega) (ih (cur + 1))
    · exact Nat.le_refl _

theorem str_loop_ge (src : List Nat) :
    ∀ fuel cur fl, cur ≤ (str_loop src fuel cur fl).1 := by
  intro fuel
  induction fuel with
  | zero => intro cur fl; exact Nat.le_refl _
  | succ fuel ih =>
    intro cur fl
    simp only [str_loop]
    split_ifs <;> (try dsimp only) <;>
      first
        | omega
        | exact Nat.le_trans (by omega) (ih _ _)

theorem num_tail_ge (src : List Nat) (cur2 : Nat) :
    cur2 ≤ (num_tail src cur2).1 := by
  unfold num_tail
  dsimp only
  split_ifs <;>
    first
      | omega
      | exact Nat.le_trans (by omega) (exp_digits_ge src _ _)

theorem char_type_four (c : Nat) (h : char_type c = 4) :
    is_alpha c = true ∨ c = 95 ∨ c = 64 := by
  unfold char_type at h
  split_ifs at h with h1 h2 h3 h4 h5 h6 <;>
    first
      | exact absurd h (by decide)
      | simpa using h4

theorem char_type_five (c : Nat) (h : char_type c = 5) :
    is_digit c = true := by
  unfold char_type at h
  split_ifs at h with h1 h2 h3 h4 h5 h6 <;>
    first
      | exact absurd h (by decide)
      | exact h5

theorem ident_loop_succ (src : List Nat) (fuel cur flags : Nat)
    (hc : cur < src.length)
    (hv : is_alpha (get_byte src cur) = true ∨
      is_digit (get_byte src cur) = true ∨ get_byte src cur = 95) :
    cur + 1 ≤ (ident_loop src (fuel + 1) cur flags).1 := by
  simp only [ident_loop]
  rw [if_pos hc]
  try dsimp only
  rw [if_pos hv]
  exact ident_loop_ge src fuel (cur + 1) _

theorem num_body_succ (src : List Nat) (hx hb : Bool) (fuel cur hd fl : Nat)
    (hc : cur < src.length)
    (hv : (hx = true ∧ hex_lookup (get_byte src cur) = true) ∨
      (hb = true ∧ bin_lookup (get_byte src cur) = true) ∨
      (¬ hx = true ∧ ¬ hb = true ∧
        (is_digit (get_byte src cur) = true ∨ get_byte src cur = 46))) :
    cur + 1 ≤ (num_body src hx hb (fuel + 1) cur hd fl).1 := by
  simp only [num_body]
  rw [if_pos hc]
  try dsimp only
  rw [if_pos hv]
  exact num_body_ge src hx hb fuel (cur + 1) _ _

theorem lex_identifier_len (src : List Nat) (pos : Nat) (hp : pos < src.length)
    (h4 : char_type (get_byte src pos) = 4) :
    1 ≤ (lex_identifier src pos).length := by
  have hstart := char_type_four _ h4
  unfold lex_identifier
  dsimp only
  by_cases h64 : get_byte src pos = 64
  · rw [if_pos h64]
    have h := ident_loop_ge src (src.length + 1) (pos + 1)
      (if get_byte src pos = 95 ∨ get_byte src pos = 64 ∨
        is_alpha (get_byte src pos) = true then 0 else 64)
    omega
  · rw [if_neg h64]
    simp only [Nat.add_zero]
    have hv : is_alpha (get_byte src pos) = true ∨
        is_digit (get_byte src pos) = true ∨ get_byte src pos = 95 := by
      rcases hstart with h | h | h
      · exact Or.inl h
      · exact Or.inr (Or.inr h)
      · exact absurd h h64
    have h := ident_loop_succ src src.length pos
      (if get_byte src pos = 95 ∨ get_byte src pos = 64 ∨
        is_alpha (get_byte src pos) = true then 0 else 64) hp hv
    omega

theorem num_scan_chain (src : List Nat) (hx hb : Bool) (cur1 : Nat) :
    cur1 ≤ (num_tail src (num_body src hx hb (src.length + 1) cur1 0 0).1).1 :=
  Nat.le_trans (num_body_ge src hx hb _ cur1 0 0) (num_tail_ge src _)

theorem num_scan_start (src : List Nat) (hx hb : Bool) (pos d : Nat)
    (hp : pos < src.length) (hd : is_digit (get_byte src pos) = true)
    (hcase : d = 2 ∨ (d = 0 ∧ ¬ hx = true ∧ ¬ hb = true)) :
    pos + 1 ≤
      (num_tail src (num_body src hx hb (src.length + 1) (pos + d) 0 0).1).1 := by
  rcases hcase with h2 | ⟨h0, hnx, hnb⟩
  · subst h2
    refine Nat.le_trans ?_ (num_scan_chain src hx hb _)
    omega
  · subst h0
    refine Nat.le_trans ?_ (num_tail_ge src _)
    simp only [Nat.add_zero]
    exact num_body_succ src hx hb src.length pos 0 0 hp
      (Or.inr (Or.inr ⟨hnx, hnb, Or.inl hd⟩))

theorem lex_number_len (src : List Nat) (pos : Nat) (hp : pos < src.length)
    (h5 : char_type (get_byte src pos) = 5) :
    1 ≤ (lex_number src pos).length := by
  have hd : is_digit (get_byte src pos) = true := char_type_five _ h5
  suffices h : pos + 1 ≤ (lex_number_scan src pos).1 by
    unfold lex_number
    dsimp only
    omega
  unfold lex_number_scan
  dsimp only
  rw [if_pos hd]
  have hkge : pos ≤ digit_chunks src (src.length + 1) pos :=
    digit_chunks_ge src _ pos
  rcases Nat.eq_or_lt_of_le hkge with heq | hlt
  · rw [← heq]
    split_ifs <;>
      first
        | exact num_scan_start src _ _ pos 2 hp hd (Or.inl rfl)
        | (rename_i hcb
           exact num_scan_start src _ _ pos 0 hp hd
             (Or.inr ⟨rfl, fun hh => hcb (Or.inl hh),
               fun hh => hcb (Or.inr hh)⟩))
  · refine Nat.le_trans ?_ (num_scan_chain src _ _ _)
    exact Nat.le_trans hlt (Nat.le_add_right _ _)

theorem lex_string_len (src : List Nat) (pos : Nat) :
    1 ≤ (lex_string src pos).length := by
  unfold lex_string
  dsimp only
  have h := str_loop_ge src (src.length + 1) (pos + 1) 0
  omega

theorem next_token_pos_ge (src : List Nat) (pos : Nat) (ls : List Nat)
    (log : List (Nat × Nat)) : pos ≤ (next_token src pos ls log).2.1 := by
  unfold next_token
  dsimp only
  split_ifs <;> exact skip_ge src pos ls log

theorem next_token_ne_eof (src : List Nat) (pos : Nat) (ls : List Nat)
    (log : List (Nat × Nat))
    (h : (next_token src pos ls log).1.type ≠ 85) :
    (next_token src pos ls log).2.1 < src.length ∧
      1 ≤ (next_token src pos ls log).1.length := by
  unfold next_token at h ⊢
  dsimp only at h ⊢
  by_cases hp : (skip_whitespace_comment src pos ls log).1 ≥ src.length
  · rw [if_pos hp] at h
    exact absurd rfl h
  · rw [if_neg hp] at h ⊢
    push_neg at hp
    split_ifs with h4 h5 h6
    · exact ⟨hp, lex_identifier_len src _ hp h4⟩
    · exact ⟨hp, lex_number_len src _ hp h5⟩
    · exact ⟨hp, lex_string_len src _⟩
    · exact ⟨hp, Nat.le_refl _⟩

theorem tokenize_loop_eof (src : List Nat) : ∀ fuel pos ls log,
    src.length - pos < fuel →
    ∃ pre eof, tokenize_loop src fuel pos ls log = some (pre ++ [eof]) ∧
      eof.type = 85 ∧ ∀ t ∈ pre, t.type ≠ 85 := by
  intro fuel
  induction fuel with
  | zero => intro pos ls log h; omega
  | succ fuel ih =>
    intro pos ls log h
    by_cases ht : (next_token src pos ls log).1.type = 85
    · refine ⟨[], (next_token src pos ls log).1, ?_, ht, by simp⟩
      simp only [tokenize_loop]
      rw [if_pos ht]
      simp
    · obtain ⟨hlt, hlen⟩ := next_token_ne_eof src pos ls log ht
      have hge := next_token_pos_ge src pos ls log
      obtain ⟨pre, eof, hre, heq, hpre⟩ := ih
        ((next_token src pos ls log).2.1 + (next_token src pos ls log).1.length)
        (next_token src pos ls log).2.2.1
        (next_token src pos ls log).2.2.2 (by omega)
      refine ⟨(next_token src pos ls log).1 :: pre, eof, ?_, heq, ?_⟩
      · simp only [tokenize_loop]
        rw [if_neg ht, hre]
        rfl
      · intro t htm
        rcases List.mem_cons.mp htm with hh | hh
        · rw [hh]
          exact ht
        · exact hpre t hh

/-- Claim C8: for every finite source buffer, `tokenize` terminates — the
fuel `src.length + 1` is reached by the natural loop exit, since every
non-EOF token advances the position by its length of at least one byte —
and the returned token list contains exactly one token of kind
END_OF_FILE (85), which is the last token. -/
theorem c8_tokenize_single_trailing_eof (src : List Nat) :
    ∃ pre eof, tokenize src = some (pre ++ [eof]) ∧ eof.type = 85 ∧
      ∀ t ∈ pre, t.type ≠ 85 :=
  tokenize_loop_eof src (src.length + 1) 0 [0] [] (by omega)

/-! ### Claim C10: line-table accesses in skip_whitespace_comment -/

/-- Claim C10: the claim states that every read and write of `line_starts`
in `skip_whitespace_comment` uses an index strictly smaller than the
vector's size at the moment of access, including for bytes that are not
newlines. Evaluating the embedded code on the one-byte source consisting of
the letter a (byte 97, not a newline) from the constructor state
(`line_starts = [0]`): the branchless tracking resizes the vector to
`curr_size + 0 = 1` and then accesses `line_starts[1]` — index equal to the
size, one past the end. The access log holds exactly that access, and it
violates the claimed bound. -/
theorem c10_line_starts_access_out_of_bounds :
    (skip_whitespace_comment [97] 0 [0] []).2.2 = [(1, 1)] ∧
    ∀ e ∈ (skip_whitespace_comment [97] 0 [0] []).2.2, ¬ e.1 < e.2 := by
  decide

end Yu
